import Mathlib

/-!
Shallow embedding of src/registration/core.py (the meshmonk python
registration core) and verification of the frozen claims about it.

Conventions used throughout:
* numpy float arrays whose computations stay inside field and order
  operations are modelled over the rationals; the routine that uses square
  roots and exponentials (inlier_detection) is modelled over the reals,
  with the IEEE special values (nan and the infinities) tracked explicitly
  by the type PF below at the only places they can arise.
* A matrix of shape (n1, n2) is a function Fin n1 → Fin n2 → ℚ.
* A python function that can raise returns Except PyErr.
* Line numbers in doc comments refer to src/registration/core.py.
-/

/-- Identifiers of core.py that play a role in the claims: the module level
bindings, the parameters of rigid_transformation, and the five names its body
reads without binding them. Modelled as an inductive so that name lookups
are decidable. -/
inductive PyName where
  | sys | np | linalg | spatial | helpers
  | wknnAffinity | fuseAffinities | affinityToCorrespondences
  | inlierDetection | rigidTransformation
  | features | correspondingFeatures | weights
  | numFloatingVertices | floatingPositions | floatingWeights
  | correspondingPositions | adjustScale
  deriving DecidableEq

/-- Error taxonomy of the specification (section 7) together with the python
runtime error the source can actually raise. -/
inductive PyErr where
  | invalidArgument : PyErr
  | degenerateState : PyErr
  | nameError : PyName → PyErr
  deriving DecidableEq

/-! ## Affinity Builder: wknn_affinity, lines 29 to 75 -/

/-- Lines 61 and 62: clamp a neighbour distance to the floor 0.001. -/
def clampDistance (d : ℚ) : ℚ := if d < 1/1000 then 1/1000 else d

/-- Line 64: the affinity is one over the squared (clamped) distance. -/
def rawAffinity (d : ℚ) : ℚ := 1 / (clampDistance d * clampDistance d)

/-- Lines 65 and 66: clamp the affinity element to the floor 0.0001. -/
def clampAffinity (w : ℚ) : ℚ := if w < 1/10000 then 1/10000 else w

/-- Lines 60 to 66: the pre normalization weight computed from one
neighbour distance. -/
def affinityElementOf (d : ℚ) : ℚ := clampAffinity (rawAffinity d)

/-- Default of the parameter k of wknn_affinity (line 29). -/
def wknnDefaultK : ℕ := 3

/-- Lines 55 to 70, for one source element: starting from the zero row
allocated on line 49, sequentially scatter the neighbour weights into the
row, the weight of neighbour j landing at column nbr j (line 70); a later
neighbour with the same column index overwrites an earlier one.
scatterRow n2 dist nbr j is the row after the first j neighbours. -/
def scatterRow (n2 : ℕ) (dist : ℕ → ℚ) (nbr : ℕ → Fin n2) : ℕ → Fin n2 → ℚ
  | 0 => fun _ => 0
  | j + 1 =>
      Function.update (scatterRow n2 dist nbr j) (nbr j) (affinityElementOf (dist j))

/-- Lines 46 to 75: the matrix wknn_affinity builds. The nearest neighbour
oracle helpers.nearest_neighbours is an external collaborator (spec sections
2 and 6) delivering (n1, k) arrays of distances and target indices; we model
its output as arguments, row i of each array as a function from ℕ of which
only the entries below k are read. Row i of the result is the scattered
weight row divided by its sum (lines 72 to 74). -/
def wknn_affinity_matrix (n1 n2 k : ℕ) (dist : Fin n1 → ℕ → ℚ)
    (nbr : Fin n1 → ℕ → Fin n2) : Fin n1 → Fin n2 → ℚ :=
  fun i t =>
    scatterRow n2 (dist i) (nbr i) k t / ∑ u, scatterRow n2 (dist i) (nbr i) k u

/-- The function wknn_affinity of core.py, lines 29 to 75. Its body contains
no raise statement and no validation of k, and under the oracle contract of
spec section 6 (indices reference rows of the target set) every operation it
performs is total, so every call returns its affinity matrix normally. -/
def wknn_affinity (n1 n2 k : ℕ) (dist : Fin n1 → ℕ → ℚ)
    (nbr : Fin n1 → ℕ → Fin n2) : Except PyErr (Fin n1 → Fin n2 → ℚ) :=
  Except.ok (wknn_affinity_matrix n1 n2 k dist nbr)

/-! ## Affinity Fuser: fuse_affinities, lines 77 to 98 -/

/-- Line 94: the elementwise sum of affinity12 and the transpose of
affinity21. -/
def fuse_affinities_sum (n1 n2 : ℕ) (a12 : Fin n1 → Fin n2 → ℚ)
    (a21 : Fin n2 → Fin n1 → ℚ) : Fin n1 → Fin n2 → ℚ :=
  fun i j => a12 i j + a21 j i

/-- Lines 94 to 96: the value the local name affinityFused holds just before
the return statement: the summed matrix with every row divided by its row
sum (keepdims division of line 96). -/
def fuse_affinities_localFused (n1 n2 : ℕ) (a12 : Fin n1 → Fin n2 → ℚ)
    (a21 : Fin n2 → Fin n1 → ℚ) : Fin n1 → Fin n2 → ℚ :=
  fun i j =>
    fuse_affinities_sum n1 n2 a12 a21 i j / ∑ t, fuse_affinities_sum n1 n2 a12 a21 i t

/-- The function fuse_affinities of core.py, lines 77 to 98, as observed by
the caller. The assignments on lines 94 and 96 rebind the local name
affinityFused to freshly allocated arrays (numpy addition and division
allocate, and the transpose on line 94 is a read only view), so the body
never writes through any argument reference. The caller therefore sees the
return value True of line 98 together with its three argument arrays
unchanged; we model the call as that quadruple. The fused matrix is only
ever held by the rebound local, fuse_affinities_localFused above. -/
def fuse_affinities (n1 n2 : ℕ) (a12 : Fin n1 → Fin n2 → ℚ)
    (a21 : Fin n2 → Fin n1 → ℚ) (affinityFused : Fin n1 → Fin n2 → ℚ) :
    Bool × (Fin n1 → Fin n2 → ℚ) × (Fin n2 → Fin n1 → ℚ) × (Fin n1 → Fin n2 → ℚ) :=
  let _affinityFusedLocal := fuse_affinities_localFused n1 n2 a12 a21
  (true, a12, a21, affinityFused)

/-! ## Correspondence Resolver: affinity_to_correspondences, lines 100 to 132 -/

/-- Line 122: correspondingFeatures is the matrix product of the affinity
with features2. -/
def correspondingFeaturesOf (n1 n2 d : ℕ) (features2 : Fin n2 → Fin d → ℚ)
    (affinity : Fin n1 → Fin n2 → ℚ) : Fin n1 → Fin d → ℚ :=
  fun i c => ∑ j, affinity i j * features2 j c

/-- Line 123: correspondingFlags before binarization, the product of the
affinity with flags2. -/
def blendedFlags (n1 n2 : ℕ) (flags2 : Fin n2 → ℚ)
    (affinity : Fin n1 → Fin n2 → ℚ) : Fin n1 → ℚ :=
  fun i => ∑ j, affinity i j * flags2 j

/-- Default of the parameter flagRoundingLimit (line 100). -/
def flagRoundingLimitDefault : ℚ := 9/10

/-- The function affinity_to_correspondences of core.py, lines 100 to 132:
blend features and flags through the affinity, then binarize each blended
flag with the strict comparison flag > flagRoundingLimit of line 127. -/
def affinity_to_correspondences (n1 n2 d : ℕ) (features2 : Fin n2 → Fin d → ℚ)
    (flags2 : Fin n2 → ℚ) (affinity : Fin n1 → Fin n2 → ℚ)
    (flagRoundingLimit : ℚ) : (Fin n1 → Fin d → ℚ) × (Fin n1 → ℚ) :=
  (correspondingFeaturesOf n1 n2 d features2 affinity,
   fun i => if blendedFlags n1 n2 flags2 affinity i > flagRoundingLimit then 1 else 0)

/-! ## Rigid Transform Estimator: rigid_transformation, lines 192 to 296 -/

/-- Names bound at module level in core.py: the imports of lines 18 to 25
and the five function definitions. The star import from openmesh on line 20
supplies mesh library bindings only; as spec section 9 records, none of the
five names the rigid transform body reads freely (numFloatingVertices,
floatingPositions, floatingWeights, correspondingPositions, adjustScale) is
bound anywhere, which it records as a source defect. -/
def coreModuleGlobals : List PyName :=
  [PyName.sys, PyName.np, PyName.linalg, PyName.spatial, PyName.helpers,
   PyName.wknnAffinity, PyName.fuseAffinities, PyName.affinityToCorrespondences,
   PyName.inlierDetection, PyName.rigidTransformation]

/-- The declared parameters of rigid_transformation (line 192). -/
def rigidTransformationParams : List PyName :=
  [PyName.features, PyName.correspondingFeatures, PyName.weights]

/-- The names the body of rigid_transformation evaluates without binding
them: lines 215 to 218, 226, 269, 272 to 276. -/
def rigidTransformationFreeNames : List PyName :=
  [PyName.numFloatingVertices, PyName.floatingPositions, PyName.floatingWeights,
   PyName.correspondingPositions, PyName.adjustScale]

/-- The function rigid_transformation of core.py, lines 192 to 296. Lines
212 to 214 bind the locals floatingCentroid, correspondingCentroid and
weightSum without touching the parameters; line 215 then evaluates
range(numFloatingVertices). The name numFloatingVertices is not a parameter,
not a previously bound local, and not bound at module level, so that lookup
raises NameError on every call, and lines 216 to 296 (including the final
in place update of floatingPositions, itself another unbound name) are
unreachable. The membership test below is the python name resolution of
line 215; it is decidably false. -/
def rigid_transformation (n : ℕ) (features correspondingFeatures : Fin n → Fin 6 → ℚ)
    (weights : Fin n → ℚ) : Except PyErr Unit :=
  let _floatingCentroid : Fin 3 → ℚ := fun _ => 0
  let _correspondingCentroid : Fin 3 → ℚ := fun _ => 0
  let _weightSum : ℚ := 0
  if PyName.numFloatingVertices ∈ rigidTransformationParams ∨
     PyName.numFloatingVertices ∈ coreModuleGlobals then
    Except.ok ()
  else
    Except.error (PyErr.nameError PyName.numFloatingVertices)

/-! ## Helper lemmas for the Affinity Builder -/

lemma affinityElementOf_ge (d : ℚ) : 1/10000 ≤ affinityElementOf d := by
  unfold affinityElementOf clampAffinity
  split
  · exact le_refl _
  · exact le_of_not_lt (by assumption)

lemma scatterRow_nonneg (n2 : ℕ) (dist : ℕ → ℚ) (nbr : ℕ → Fin n2) :
    ∀ (j : ℕ) (t : Fin n2), 0 ≤ scatterRow n2 dist nbr j t := by
  intro j
  induction j with
  | zero => intro t; simp [scatterRow]
  | succ j ih =>
      intro t
      unfold scatterRow
      rcases eq_or_ne t (nbr j) with h | h
      · rw [h, Function.update_same]
        have := affinityElementOf_ge (dist j)
        linarith
      · rw [Function.update_noteq h]
        exact ih t

lemma scatterRow_sum_pos (n2 : ℕ) (dist : ℕ → ℚ) (nbr : ℕ → Fin n2)
    (k : ℕ) (hk : 1 ≤ k) : 0 < ∑ t, scatterRow n2 dist nbr k t := by
  obtain ⟨j, rfl⟩ : ∃ j, k = j + 1 := ⟨k - 1, by omega⟩
  have hle : scatterRow n2 dist nbr (j + 1) (nbr j)
      ≤ ∑ t, scatterRow n2 dist nbr (j + 1) t :=
    Finset.single_le_sum (fun t _ => scatterRow_nonneg n2 dist nbr (j + 1) t)
      (Finset.mem_univ _)
  have hval : scatterRow n2 dist nbr (j + 1) (nbr j) = affinityElementOf (dist j) := by
    unfold scatterRow
    exact Function.update_same _ _ _
  have hfloor := affinityElementOf_ge (dist j)
  rw [hval] at hle
  linarith

/-! ## Claim C5 -/

/-- C5: for nonempty feature sets and any k with 1 ≤ k ≤ N target, every
entry of the affinity matrix returned by the Affinity Builder is nonnegative
and every row sums to 1 (exactly, over ℚ), and the matrix is what the call
returns. -/
theorem wknn_affinity_row_stochastic (n1 n2 k : ℕ) (dist : Fin n1 → ℕ → ℚ)
    (nbr : Fin n1 → ℕ → Fin n2) (h1 : 0 < n1) (h2 : 0 < n2)
    (hk1 : 1 ≤ k) (hk2 : k ≤ n2) :
    (∀ i t, 0 ≤ wknn_affinity_matrix n1 n2 k dist nbr i t) ∧
    (∀ i, ∑ t, wknn_affinity_matrix n1 n2 k dist nbr i t = 1) ∧
    wknn_affinity n1 n2 k dist nbr = Except.ok (wknn_affinity_matrix n1 n2 k dist nbr) := by
  refine ⟨?_, ?_, rfl⟩
  · intro i t
    exact div_nonneg (scatterRow_nonneg n2 (dist i) (nbr i) k t)
      (le_of_lt (scatterRow_sum_pos n2 (dist i) (nbr i) k hk1))
  · intro i
    unfold wknn_affinity_matrix
    rw [← Finset.sum_div]
    exact div_self (ne_of_gt (scatterRow_sum_pos n2 (dist i) (nbr i) k hk1))

/-- Witness for C5 at the concrete input n1 = n2 = k = 1 with a single
neighbour at distance 0. -/
theorem wknn_affinity_row_stochastic_witness :
    0 ≤ wknn_affinity_matrix 1 1 1 (fun _ _ => 0) (fun _ _ => 0) 0 0 ∧
    (∑ t, wknn_affinity_matrix 1 1 1 (fun _ _ => 0) (fun _ _ => 0) 0 t) = 1 :=
  ⟨(wknn_affinity_row_stochastic 1 1 1 (fun _ _ => 0) (fun _ _ => 0)
      (by decide) (by decide) (by decide) (by decide)).1 0 0,
   (wknn_affinity_row_stochastic 1 1 1 (fun _ _ => 0) (fun _ _ => 0)
      (by decide) (by decide) (by decide) (by decide)).2.1 0⟩

/-! ## Claim C6 -/

/-- C6 counterexample: at k = 0, which violates the constraint 1 ≤ k, the
Affinity Builder returns normally (Except.ok) instead of failing with
InvalidArgument. -/
theorem wknn_affinity_k_zero_returns_ok :
    ¬ (1 : ℕ) ≤ 0 ∧
    wknn_affinity 1 1 0 (fun _ _ => 0) (fun _ _ => 0)
      = Except.ok (wknn_affinity_matrix 1 1 0 (fun _ _ => 0) (fun _ _ => 0)) :=
  ⟨by decide, rfl⟩

/-- C6 amended: wknn_affinity performs no validation of k at all: for every
k, in range or not, the call returns its matrix normally and in particular
never fails with InvalidArgument. -/
theorem wknn_affinity_never_fails (n1 n2 k : ℕ) (dist : Fin n1 → ℕ → ℚ)
    (nbr : Fin n1 → ℕ → Fin n2) :
    wknn_affinity n1 n2 k dist nbr
      = Except.ok (wknn_affinity_matrix n1 n2 k dist nbr) := rfl

/-! ## Claim C8 -/

/-- C8: the Affinity Builder never divides by zero: every clamped distance
is nonzero (so the division on line 64 is always defined), and a coincident
neighbour at distance 0 gets the clamped distance 0.001 and the floor
derived maximal pre normalization weight 1000000 = 1 / 0.001 squared (the
0.0001 weight floor of lines 65 and 66 leaves it unchanged). -/
theorem wknn_affinity_distance_floor (d : ℚ) :
    clampDistance d ≠ 0 ∧
    (d = 0 → clampDistance d = 1/1000 ∧ affinityElementOf d = 1000000) := by
  constructor
  · by_cases hd : d < 1/1000
    · unfold clampDistance
      rw [if_pos hd]
      norm_num
    · unfold clampDistance
      rw [if_neg hd]
      intro h0
      rw [h0] at hd
      norm_num at hd
  · intro h0
    subst h0
    have hc : clampDistance 0 = 1/1000 := by
      unfold clampDistance
      rw [if_pos (by norm_num)]
    refine ⟨hc, ?_⟩
    unfold affinityElementOf rawAffinity clampAffinity
    rw [hc, if_neg (by norm_num)]
    norm_num

/-- Witness for C8 at the concrete coincident distance 0. -/
theorem wknn_affinity_distance_floor_witness :
    clampDistance 0 ≠ 0 ∧ clampDistance 0 = 1/1000 ∧ affinityElementOf 0 = 1000000 :=
  ⟨(wknn_affinity_distance_floor 0).1,
   ((wknn_affinity_distance_floor 0).2 rfl).1,
   ((wknn_affinity_distance_floor 0).2 rfl).2⟩

/-! ## Claim C3 -/

/-- C3 counterexample: with affinity12 = affinity21 = the 1 by 1 matrix
with entry 1 and affinityFused = the matrix with entry 0, fuse_affinities
returns the boolean True with every argument array unchanged; in particular
the affinityFused argument still differs from the fused matrix (whose entry
is 1), so the fused matrix reaches the caller through no channel. -/
theorem fuse_affinities_does_not_return_matrix :
    fuse_affinities 1 1 (fun _ _ => 1) (fun _ _ => 1) (fun _ _ => 0)
      = (true, fun _ _ => 1, fun _ _ => 1, fun _ _ => 0) ∧
    (fun _ _ => (0 : ℚ)) ≠ fuse_affinities_localFused 1 1 (fun _ _ => 1) (fun _ _ => 1) := by
  refine ⟨rfl, fun h => ?_⟩
  have h0 := congrFun (congrFun h 0) 0
  norm_num [fuse_affinities_localFused, fuse_affinities_sum] at h0

/-- C3 amended: fuse_affinities computes the row renormalized elementwise
sum of affinity12 and the transpose of affinity21 only into a local that is
then discarded; the caller receives the return value True and all three
argument arrays unchanged (no input is mutated). -/
theorem fuse_affinities_returns_true (n1 n2 : ℕ) (a12 : Fin n1 → Fin n2 → ℚ)
    (a21 : Fin n2 → Fin n1 → ℚ) (affinityFused : Fin n1 → Fin n2 → ℚ) :
    fuse_affinities n1 n2 a12 a21 affinityFused = (true, a12, a21, affinityFused) ∧
    fuse_affinities_localFused n1 n2 a12 a21
      = fun i j => (a12 i j + a21 j i) / ∑ t, (a12 i t + a21 t i) :=
  ⟨rfl, rfl⟩

/-! ## Claim C9 -/

/-- C9: flag binarization uses a strict greater than comparison against the
threshold: a blended flag strictly above flagRoundingLimit resolves to 1.0, a
blended flag exactly equal to the threshold resolves to 0.0, and the default
threshold is 0.9. -/
theorem affinity_to_correspondences_strict_threshold (n1 n2 d : ℕ)
    (features2 : Fin n2 → Fin d → ℚ) (flags2 : Fin n2 → ℚ)
    (affinity : Fin n1 → Fin n2 → ℚ) (limit : ℚ) (i : Fin n1) :
    (blendedFlags n1 n2 flags2 affinity i > limit →
      (affinity_to_correspondences n1 n2 d features2 flags2 affinity limit).2 i = 1) ∧
    (blendedFlags n1 n2 flags2 affinity i = limit →
      (affinity_to_correspondences n1 n2 d features2 flags2 affinity limit).2 i = 0) ∧
    flagRoundingLimitDefault = 9/10 := by
  refine ⟨fun h => ?_, fun h => ?_, rfl⟩
  · simp [affinity_to_correspondences, h]
  · simp [affinity_to_correspondences, h]

/-- Witness for C9: with a single target whose flag is 0.9 and affinity
weight 1 the blended flag equals the default threshold exactly and resolves
to 0; raising the target flag to 1 takes the blend strictly above the
threshold and it resolves to 1. -/
theorem affinity_to_correspondences_strict_threshold_witness :
    (affinity_to_correspondences 1 1 1 (fun _ _ => 0) (fun _ => 9/10)
      (fun _ _ => 1) (9/10)).2 0 = 0 ∧
    (affinity_to_correspondences 1 1 1 (fun _ _ => 0) (fun _ => 1)
      (fun _ _ => 1) (9/10)).2 0 = 1 :=
  ⟨(affinity_to_correspondences_strict_threshold 1 1 1 (fun _ _ => 0) (fun _ => 9/10)
      (fun _ _ => 1) (9/10) 0).2.1 (by norm_num [blendedFlags, Fin.sum_univ_one]),
   (affinity_to_correspondences_strict_threshold 1 1 1 (fun _ _ => 0) (fun _ => 1)
      (fun _ _ => 1) (9/10) 0).1 (by norm_num [blendedFlags, Fin.sum_univ_one])⟩

/-! ## Claims C7 and C2 -/

/-- C7: on every input, the body of rigid_transformation evaluates the name
numFloatingVertices, which is neither among its declared parameters nor
bound at module level (and the same holds for all five of its free names),
so every call fails with NameError; the result never depends on the declared
parameters, so the routine cannot compute its result from its stated inputs
on any input. -/
theorem rigid_transformation_unbound_globals (n : ℕ)
    (features correspondingFeatures : Fin n → Fin 6 → ℚ) (weights : Fin n → ℚ) :
    rigid_transformation n features correspondingFeatures weights
      = Except.error (PyErr.nameError PyName.numFloatingVertices) ∧
    (∀ name ∈ rigidTransformationFreeNames,
      name ∉ coreModuleGlobals ∧ name ∉ rigidTransformationParams) ∧
    (∀ (m : ℕ) (f c : Fin m → Fin 6 → ℚ) (w : Fin m → ℚ),
      rigid_transformation m f c w
        = rigid_transformation n features correspondingFeatures weights) := by
  have herr : ∀ (m : ℕ) (f c : Fin m → Fin 6 → ℚ) (w : Fin m → ℚ),
      rigid_transformation m f c w
        = Except.error (PyErr.nameError PyName.numFloatingVertices) := by
    intro m f c w
    rfl
  exact ⟨herr n features correspondingFeatures weights, by decide,
    fun m f c w => (herr m f c w).trans (herr n features correspondingFeatures weights).symm⟩

/-- C2: evaluating rigid_transformation at a concrete input: the call fails
with NameError instead of transforming the floating positions and returning
the 4 by 4 transformation matrix its own docstring (lines 198 and 209)
promises; the body also reaches no return statement. -/
theorem rigid_transformation_concrete_call_fails :
    rigid_transformation 1 (fun _ _ => 0) (fun _ _ => 0) (fun _ => 1)
      = Except.error (PyErr.nameError PyName.numFloatingVertices) := rfl

/-! ## Inlier Classifier: inlier_detection, lines 134 to 190

The sigma recalculation of lines 164 to 174 can produce the IEEE special
values: when the probability sum is zero, line 173 evaluates 0.0/0.0 to nan
(a numpy warning, not an exception) and the nan then propagates through
sqrt, the densities and the final probabilities. We therefore track the
special values explicitly with the type PF (python float): a value is a
finite real or one of nan, plus infinity, minus infinity. Rounding is not
modelled; finite arithmetic is exact real arithmetic. The finite zero is
treated as the positive zero (numpy default; the sign of zero is otherwise
irrelevant to the code under study). -/

/-- Python float with IEEE special values: finite value, plus infinity,
minus infinity, nan. -/
inductive PF where
  | fin : ℝ → PF
  | pinf : PF
  | ninf : PF
  | nan : PF

namespace PF

/-- IEEE addition. -/
noncomputable def add : PF → PF → PF
  | .fin a, .fin b => .fin (a + b)
  | .nan, _ => .nan
  | _, .nan => .nan
  | .pinf, .ninf => .nan
  | .ninf, .pinf => .nan
  | .pinf, _ => .pinf
  | _, .pinf => .pinf
  | .ninf, _ => .ninf
  | _, .ninf => .ninf

/-- IEEE multiplication (zero times an infinity is nan). -/
noncomputable def mul : PF → PF → PF
  | .fin a, .fin b => .fin (a * b)
  | .nan, _ => .nan
  | _, .nan => .nan
  | .pinf, .pinf => .pinf
  | .pinf, .ninf => .ninf
  | .ninf, .pinf => .ninf
  | .ninf, .ninf => .pinf
  | .pinf, .fin b => if b = 0 then .nan else if 0 < b then .pinf else .ninf
  | .fin a, .pinf => if a = 0 then .nan else if 0 < a then .pinf else .ninf
  | .ninf, .fin b => if b = 0 then .nan else if 0 < b then .ninf else .pinf
  | .fin a, .ninf => if a = 0 then .nan else if 0 < a then .ninf else .pinf

/-- IEEE division (zero over zero is nan, a nonzero finite over the positive
zero is a signed infinity, a finite over an infinity is zero). -/
noncomputable def div : PF → PF → PF
  | .fin a, .fin b =>
      if b = 0 then (if a = 0 then .nan else if 0 < a then .pinf else .ninf)
      else .fin (a / b)
  | .nan, _ => .nan
  | _, .nan => .nan
  | .fin _, .pinf => .fin 0
  | .fin _, .ninf => .fin 0
  | .pinf, .fin b => if 0 ≤ b then .pinf else .ninf
  | .ninf, .fin b => if 0 ≤ b then .ninf else .pinf
  | .pinf, .pinf => .nan
  | .pinf, .ninf => .nan
  | .ninf, .pinf => .nan
  | .ninf, .ninf => .nan

/-- IEEE square root (nan on negative arguments). -/
noncomputable def sqrt : PF → PF
  | .fin a => if a < 0 then .nan else .fin (Real.sqrt a)
  | .pinf => .pinf
  | .ninf => .nan
  | .nan => .nan

/-- IEEE exponential. -/
noncomputable def exp : PF → PF
  | .fin a => .fin (Real.exp a)
  | .pinf => .pinf
  | .ninf => .fin 0
  | .nan => .nan

/-- numpy square: the number times itself. -/
noncomputable def sq (x : PF) : PF := mul x x

end PF

/-- Lines 158 to 160, the flag gate: an element whose corresponding flag is
below 0.5 has its probability overwritten with 0.0 in place, the others
keep theirs. This is the state of the inlierProbability array at the moment
the sigma recalculation reads it. -/
noncomputable def gatedProbability (n : ℕ) (correspondingFlags inlierProbability : Fin n → ℝ) :
    Fin n → ℝ :=
  fun i => if correspondingFlags i < 0.5 then 0 else inlierProbability i

/-- Lines 169 and 177: the residual distance of element i, the euclidean
norm of the difference of the two feature rows (all six components). The
argument of the square root is a sum of squares, hence nonnegative, so the
IEEE square root is the real one. -/
noncomputable def residualDistance (n : ℕ)
    (features correspondingFeatures : Fin n → Fin 6 → ℝ) (i : Fin n) : ℝ :=
  Real.sqrt (∑ j, (correspondingFeatures i j - features i j) ^ 2)

/-- Lines 166 to 171: the numerator accumulated for sigma, the gated
probability weighted sum of squared residual distances. -/
noncomputable def sigmaNumerator (n : ℕ)
    (features correspondingFeatures : Fin n → Fin 6 → ℝ)
    (correspondingFlags inlierProbability : Fin n → ℝ) : ℝ :=
  ∑ i, gatedProbability n correspondingFlags inlierProbability i *
        residualDistance n features correspondingFeatures i *
        residualDistance n features correspondingFeatures i

/-- Lines 166 to 171: the denominator accumulated for sigma, the sum of the
gated probabilities. -/
noncomputable def sigmaDenominator (n : ℕ)
    (correspondingFlags inlierProbability : Fin n → ℝ) : ℝ :=
  ∑ i, gatedProbability n correspondingFlags inlierProbability i

/-- Line 173: sigmaa is sqrt(sigmaNumerator / sigmaDenominator), in IEEE
arithmetic: when both sums are zero, 0.0/0.0 evaluates to nan (numpy emits
a runtime warning and continues) and the square root of nan is nan. -/
noncomputable def sigmaaOf (n : ℕ) (features correspondingFeatures : Fin n → Fin 6 → ℝ)
    (correspondingFlags inlierProbability : Fin n → ℝ) : PF :=
  PF.sqrt (PF.div
    (PF.fin (sigmaNumerator n features correspondingFeatures correspondingFlags inlierProbability))
    (PF.fin (sigmaDenominator n correspondingFlags inlierProbability)))

/-- The constant sqrt(2 * 3.14159) of lines 174 and 178 (the source uses
the literal 3.14159, not pi). -/
noncomputable def sqrt2pi : ℝ := Real.sqrt (2 * 3.14159)

/-- Line 174: lambdaa = 1/(sqrt2pi * sigmaa) * exp(-0.5 * kappaa * kappaa),
the gaussian density at the kappa sigma cutoff. kappaa is an ordinary
finite parameter, sigmaa may be special. -/
noncomputable def lambdaaOf (sigmaa : PF) (kappaa : ℝ) : PF :=
  PF.mul (PF.div (PF.fin 1) (PF.mul (PF.fin sqrt2pi) sigmaa))
    (PF.fin (Real.exp (-0.5 * kappaa * kappaa)))

/-- Line 178: probability = 1/(sqrt2pi * sigmaa) * exp(-0.5 *
square(distance/sigmaa)), the gaussian density at the residual distance. -/
noncomputable def distProbabilityOf (sigmaa : PF) (distance : ℝ) : PF :=
  PF.mul (PF.div (PF.fin 1) (PF.mul (PF.fin sqrt2pi) sigmaa))
    (PF.exp (PF.mul (PF.fin (-0.5)) (PF.sq (PF.div (PF.fin distance) sigmaa))))

/-- Line 179: the value written over inlierProbability[i] by the distance
pass, probability / (probability + lambdaa). This assignment is
unconditional: it does not consult the value the flag gate left behind. -/
noncomputable def pass2Probability (sigmaa : PF) (kappaa distance : ℝ) : PF :=
  PF.div (distProbabilityOf sigmaa distance)
    (PF.add (distProbabilityOf sigmaa distance) (lambdaaOf sigmaa kappaa))

/-- Lines 182 to 187: the dot product of the normal subvectors, components
3 to 5 of the six component feature rows. -/
noncomputable def normalDot (n : ℕ)
    (features correspondingFeatures : Fin n → Fin 6 → ℝ) (i : Fin n) : ℝ :=
  features i 3 * correspondingFeatures i 3 + features i 4 * correspondingFeatures i 4 +
    features i 5 * correspondingFeatures i 5

/-- Default of the parameter kappaa (line 134). -/
def kappaaDefault : ℝ := 3

/-- The function inlier_detection of core.py, lines 134 to 190: the final
contents of the in/out array inlierProbability after the three passes. The
flag gate (lines 158 to 160) zeroes the flagged entries in place; sigmaa
and lambdaa (lines 162 to 174) are computed from the gated array; the
distance pass (lines 176 to 179) then overwrites every entry with the
responsibility pass2Probability, and the normal pass (lines 181 to 190)
multiplies each entry by the rescaled dot product dotProduct/2 + 0.5. -/
noncomputable def inlier_detection (n : ℕ)
    (features correspondingFeatures : Fin n → Fin 6 → ℝ)
    (correspondingFlags inlierProbability : Fin n → ℝ) (kappaa : ℝ) : Fin n → PF :=
  fun i =>
    PF.mul
      (pass2Probability
        (sigmaaOf n features correspondingFeatures correspondingFlags inlierProbability)
        kappaa (residualDistance n features correspondingFeatures i))
      (PF.fin (normalDot n features correspondingFeatures i / 2 + 0.5))

/-! ## Reduction lemmas for PF arithmetic -/

lemma PF.mul_fin_fin (a b : ℝ) : PF.mul (.fin a) (.fin b) = .fin (a * b) := rfl

lemma PF.add_fin_fin (a b : ℝ) : PF.add (.fin a) (.fin b) = .fin (a + b) := rfl

lemma PF.exp_fin (a : ℝ) : PF.exp (.fin a) = .fin (Real.exp a) := rfl

lemma PF.sq_fin (a : ℝ) : PF.sq (.fin a) = .fin (a * a) := rfl

lemma PF.div_fin_fin (a b : ℝ) (hb : b ≠ 0) :
    PF.div (.fin a) (.fin b) = .fin (a / b) := by
  show (if b = 0 then (if a = 0 then PF.nan else if 0 < a then PF.pinf else PF.ninf)
        else PF.fin (a / b)) = PF.fin (a / b)
  rw [if_neg hb]

lemma PF.div_fin_zero_zero : PF.div (.fin 0) (.fin 0) = .nan := by
  show (if (0 : ℝ) = 0 then (if (0 : ℝ) = 0 then PF.nan else if (0:ℝ) < 0 then PF.pinf else PF.ninf)
        else PF.fin (0 / 0)) = PF.nan
  rw [if_pos rfl, if_pos rfl]

lemma PF.sqrt_fin_of_nonneg (a : ℝ) (h : 0 ≤ a) :
    PF.sqrt (.fin a) = .fin (Real.sqrt a) := by
  show (if a < 0 then PF.nan else PF.fin (Real.sqrt a)) = PF.fin (Real.sqrt a)
  rw [if_neg (not_lt.mpr h)]

lemma PF.sqrt_nan : PF.sqrt .nan = .nan := rfl

lemma PF.exp_nan : PF.exp .nan = .nan := rfl

lemma PF.mul_nan (x : PF) : PF.mul .nan x = .nan := by
  cases x <;> rfl

lemma PF.mul_fin_nan (a : ℝ) : PF.mul (.fin a) .nan = .nan := rfl

lemma PF.div_nan (x : PF) : PF.div .nan x = .nan := by
  cases x <;> rfl

lemma PF.div_fin_nan (a : ℝ) : PF.div (.fin a) .nan = .nan := rfl

lemma PF.add_nan (x : PF) : PF.add .nan x = .nan := by
  cases x <;> rfl

lemma PF.sq_nan : PF.sq .nan = .nan := rfl

lemma sqrt2pi_pos : 0 < sqrt2pi := by
  unfold sqrt2pi
  exact Real.sqrt_pos.mpr (by norm_num)

/-! ## Spec level closed form of the classifier on nondegenerate inputs -/

/-- The real value of the sigma estimate of line 173 when the division and
the square root stay finite. -/
noncomputable def sigmaRealOf (n : ℕ) (features correspondingFeatures : Fin n → Fin 6 → ℝ)
    (correspondingFlags inlierProbability : Fin n → ℝ) : ℝ :=
  Real.sqrt (sigmaNumerator n features correspondingFeatures correspondingFlags inlierProbability /
    sigmaDenominator n correspondingFlags inlierProbability)

/-- The gaussian density of line 178 as a real function of a real sigma. -/
noncomputable def gaussianDensityAt (s distance : ℝ) : ℝ :=
  1 / (sqrt2pi * s) * Real.exp (-0.5 * (distance / s * (distance / s)))

/-- The cutoff density of line 174 as a real function of a real sigma. -/
noncomputable def cutoffDensity (s kappaa : ℝ) : ℝ :=
  1 / (sqrt2pi * s) * Real.exp (-0.5 * kappaa * kappaa)

/-- The closed form of the final probability of element i on a run whose
sigma estimate is a positive real: the gaussian responsibility at the
residual times the rescaled normal agreement. -/
noncomputable def inlierClosedForm (n : ℕ)
    (features correspondingFeatures : Fin n → Fin 6 → ℝ)
    (correspondingFlags inlierProbability : Fin n → ℝ) (kappaa : ℝ) (i : Fin n) : ℝ :=
  gaussianDensityAt (sigmaRealOf n features correspondingFeatures correspondingFlags inlierProbability)
      (residualDistance n features correspondingFeatures i) /
    (gaussianDensityAt (sigmaRealOf n features correspondingFeatures correspondingFlags inlierProbability)
        (residualDistance n features correspondingFeatures i) +
      cutoffDensity (sigmaRealOf n features correspondingFeatures correspondingFlags inlierProbability)
        kappaa) *
    (normalDot n features correspondingFeatures i / 2 + 0.5)

lemma gaussianDensityAt_pos (s distance : ℝ) (hs : 0 < s) : 0 < gaussianDensityAt s distance := by
  unfold gaussianDensityAt
  have hc : 0 < sqrt2pi * s := mul_pos sqrt2pi_pos hs
  positivity

lemma cutoffDensity_pos (s kappaa : ℝ) (hs : 0 < s) : 0 < cutoffDensity s kappaa := by
  unfold cutoffDensity
  have hc : 0 < sqrt2pi * s := mul_pos sqrt2pi_pos hs
  positivity

/-- Key evaluation lemma: whenever the two sigma sums are positive, the
whole PF computation of inlier_detection stays finite and equals the real
closed form. -/
lemma inlier_detection_eval (n : ℕ)
    (f cf : Fin n → Fin 6 → ℝ) (flags p : Fin n → ℝ) (kappaa : ℝ)
    (hnum : 0 < sigmaNumerator n f cf flags p)
    (hden : 0 < sigmaDenominator n flags p) (i : Fin n) :
    inlier_detection n f cf flags p kappaa i
      = PF.fin (inlierClosedForm n f cf flags p kappaa i) := by
  have hq : 0 < sigmaNumerator n f cf flags p / sigmaDenominator n flags p :=
    div_pos hnum hden
  have hs : 0 < sigmaRealOf n f cf flags p := Real.sqrt_pos.mpr hq
  have hsigma : sigmaaOf n f cf flags p = PF.fin (sigmaRealOf n f cf flags p) := by
    unfold sigmaaOf sigmaRealOf
    rw [PF.div_fin_fin _ _ (ne_of_gt hden), PF.sqrt_fin_of_nonneg _ (le_of_lt hq)]
  have hcs : sqrt2pi * sigmaRealOf n f cf flags p ≠ 0 :=
    ne_of_gt (mul_pos sqrt2pi_pos hs)
  have hlambda : lambdaaOf (sigmaaOf n f cf flags p) kappaa
      = PF.fin (cutoffDensity (sigmaRealOf n f cf flags p) kappaa) := by
    unfold lambdaaOf cutoffDensity
    rw [hsigma, PF.mul_fin_fin, PF.div_fin_fin _ _ hcs, PF.mul_fin_fin]
  have hdist : ∀ d : ℝ, distProbabilityOf (sigmaaOf n f cf flags p) d
      = PF.fin (gaussianDensityAt (sigmaRealOf n f cf flags p) d) := by
    intro d
    unfold distProbabilityOf gaussianDensityAt
    rw [hsigma, PF.mul_fin_fin, PF.div_fin_fin _ _ hcs,
      PF.div_fin_fin _ _ (ne_of_gt hs), PF.sq_fin, PF.mul_fin_fin, PF.exp_fin, PF.mul_fin_fin]
  have hgpos := gaussianDensityAt_pos (sigmaRealOf n f cf flags p)
    (residualDistance n f cf i) hs
  have hlpos := cutoffDensity_pos (sigmaRealOf n f cf flags p) kappaa hs
  unfold inlier_detection pass2Probability
  rw [hdist, hlambda, PF.add_fin_fin,
    PF.div_fin_fin _ _ (by linarith), PF.mul_fin_fin]
  rfl

/-! ## Concrete inputs for the classifier claims -/

/-- Pointwise evaluation of a two entry vector literal. -/
lemma vec2_at_zero {α : Type} (a b : α) : ![a, b] 0 = a := rfl

lemma vec2_at_one {α : Type} (a b : α) : ![a, b] 1 = b := rfl

/-- Pointwise evaluation of a six entry vector literal. -/
lemma vec6_at_zero {α : Type} (a b c d e f : α) : ![a, b, c, d, e, f] 0 = a := rfl

lemma vec6_at_one {α : Type} (a b c d e f : α) : ![a, b, c, d, e, f] 1 = b := rfl

lemma vec6_at_two {α : Type} (a b c d e f : α) : ![a, b, c, d, e, f] 2 = c := rfl

lemma vec6_at_three {α : Type} (a b c d e f : α) : ![a, b, c, d, e, f] 3 = d := rfl

lemma vec6_at_four {α : Type} (a b c d e f : α) : ![a, b, c, d, e, f] 4 = e := rfl

lemma vec6_at_five {α : Type} (a b c d e f : α) : ![a, b, c, d, e, f] 5 = f := rfl

/-- Concrete two element input: both features sit at the origin with unit
normal along z. -/
noncomputable def cexFeatures : Fin 2 → Fin 6 → ℝ := fun _ => ![0, 0, 0, 0, 0, 1]

/-- Concrete corresponding features: element 0 coincides with its feature,
element 1 is displaced by 1 along x; both normals agree. -/
noncomputable def cexCorresponding : Fin 2 → Fin 6 → ℝ :=
  ![![0, 0, 0, 0, 0, 1], ![1, 0, 0, 0, 0, 1]]

/-- Concrete flags: element 0 is flagged invalid (0.0), element 1 valid. -/
noncomputable def cexFlags : Fin 2 → ℝ := ![0, 1]

/-- Concrete input probabilities: both 1. -/
noncomputable def cexProbability : Fin 2 → ℝ := fun _ => 1

lemma cex_residual_zero : residualDistance 2 cexFeatures cexCorresponding 0 = 0 := by
  unfold residualDistance cexFeatures cexCorresponding
  rw [Fin.sum_univ_six]
  simp only [vec2_at_zero, vec6_at_zero, vec6_at_one, vec6_at_two, vec6_at_three,
    vec6_at_four, vec6_at_five]
  norm_num

lemma cex_residual_one : residualDistance 2 cexFeatures cexCorresponding 1 = 1 := by
  unfold residualDistance cexFeatures cexCorresponding
  rw [Fin.sum_univ_six]
  simp only [vec2_at_one, vec6_at_zero, vec6_at_one, vec6_at_two, vec6_at_three,
    vec6_at_four, vec6_at_five]
  norm_num

lemma cex_gated_zero : gatedProbability 2 cexFlags cexProbability 0 = 0 := by
  unfold gatedProbability cexFlags cexProbability
  rw [vec2_at_zero]
  norm_num

lemma cex_gated_one : gatedProbability 2 cexFlags cexProbability 1 = 1 := by
  unfold gatedProbability cexFlags cexProbability
  rw [vec2_at_one]
  norm_num

lemma cex_sigmaNumerator :
    sigmaNumerator 2 cexFeatures cexCorresponding cexFlags cexProbability = 1 := by
  unfold sigmaNumerator
  rw [Fin.sum_univ_two, cex_gated_zero, cex_gated_one, cex_residual_one]
  ring

lemma cex_sigmaDenominator :
    sigmaDenominator 2 cexFlags cexProbability = 1 := by
  unfold sigmaDenominator
  rw [Fin.sum_univ_two, cex_gated_zero, cex_gated_one]
  ring

lemma cex_normalDot_zero : normalDot 2 cexFeatures cexCorresponding 0 = 1 := by
  unfold normalDot cexFeatures cexCorresponding
  simp only [vec2_at_zero, vec6_at_three, vec6_at_four, vec6_at_five]
  norm_num

/-! ## Claim C10 -/

/-- C10: whenever the classifier runs to completion with a well defined
positive sigma (both sigma sums positive), the final probability of every
element i equals the responsibility of the gaussian density at the residual
of i against the kappa sigma cutoff density, times the rescaled normal dot
product; and the input probabilities and the flag gate reach the result
only through sigma: any flags and probability vector producing the same
sigma produce the identical output array. -/
theorem inlier_detection_closed_form (n : ℕ)
    (f cf : Fin n → Fin 6 → ℝ) (flags p : Fin n → ℝ) (kappaa : ℝ)
    (hnum : 0 < sigmaNumerator n f cf flags p)
    (hden : 0 < sigmaDenominator n flags p) :
    (∀ i, inlier_detection n f cf flags p kappaa i
      = PF.fin (inlierClosedForm n f cf flags p kappaa i)) ∧
    (∀ (flags2 p2 : Fin n → ℝ),
      sigmaaOf n f cf flags2 p2 = sigmaaOf n f cf flags p →
      inlier_detection n f cf flags2 p2 kappaa = inlier_detection n f cf flags p kappaa) := by
  refine ⟨fun i => inlier_detection_eval n f cf flags p kappaa hnum hden i, ?_⟩
  intro flags2 p2 hsig
  funext i
  unfold inlier_detection
  rw [hsig]

/-- Witness for C10 at the concrete two element input (sigma sums both 1),
evaluated at element 1; the sigma sufficiency part is instantiated with the
input itself. -/
theorem inlier_detection_closed_form_witness :
    0 < sigmaNumerator 2 cexFeatures cexCorresponding cexFlags cexProbability ∧
    0 < sigmaDenominator 2 cexFlags cexProbability ∧
    inlier_detection 2 cexFeatures cexCorresponding cexFlags cexProbability 3 1
      = PF.fin (inlierClosedForm 2 cexFeatures cexCorresponding cexFlags cexProbability 3 1) ∧
    inlier_detection 2 cexFeatures cexCorresponding cexFlags cexProbability 3
      = inlier_detection 2 cexFeatures cexCorresponding cexFlags cexProbability 3 := by
  have hnum : 0 < sigmaNumerator 2 cexFeatures cexCorresponding cexFlags cexProbability := by
    rw [cex_sigmaNumerator]
    norm_num
  have hden : 0 < sigmaDenominator 2 cexFlags cexProbability := by
    rw [cex_sigmaDenominator]
    norm_num
  have h := inlier_detection_closed_form 2 cexFeatures cexCorresponding cexFlags
    cexProbability 3 hnum hden
  exact ⟨hnum, hden, h.1 1, h.2 cexFlags cexProbability rfl⟩

/-! ## Claim C1 -/

/-- C1 counterexample: element 0 of the concrete input has corresponding
flag 0.0, below 0.5, yet its final inlier probability is not 0.0: the
distance pass of lines 176 to 179 unconditionally overwrites the zero the
flag gate wrote on line 160, so the hard zero does not survive to the end
of the call. -/
theorem inlier_detection_flag_gate_overwritten :
    cexFlags 0 < 0.5 ∧
    inlier_detection 2 cexFeatures cexCorresponding cexFlags cexProbability 3 0 ≠ PF.fin 0 := by
  have hnum : 0 < sigmaNumerator 2 cexFeatures cexCorresponding cexFlags cexProbability := by
    rw [cex_sigmaNumerator]
    norm_num
  have hden : 0 < sigmaDenominator 2 cexFlags cexProbability := by
    rw [cex_sigmaDenominator]
    norm_num
  have hs : 0 < sigmaRealOf 2 cexFeatures cexCorresponding cexFlags cexProbability :=
    Real.sqrt_pos.mpr (div_pos hnum hden)
  refine ⟨by rw [show cexFlags 0 = 0 from rfl]; norm_num, ?_⟩
  rw [inlier_detection_eval 2 cexFeatures cexCorresponding cexFlags cexProbability 3 hnum hden 0]
  intro hcontra
  have hval : inlierClosedForm 2 cexFeatures cexCorresponding cexFlags cexProbability 3 0 = 0 :=
    PF.fin.inj hcontra
  have hg := gaussianDensityAt_pos
    (sigmaRealOf 2 cexFeatures cexCorresponding cexFlags cexProbability)
    (residualDistance 2 cexFeatures cexCorresponding 0) hs
  have hl := cutoffDensity_pos
    (sigmaRealOf 2 cexFeatures cexCorresponding cexFlags cexProbability) 3 hs
  have hpos : 0 < inlierClosedForm 2 cexFeatures cexCorresponding cexFlags cexProbability 3 0 := by
    unfold inlierClosedForm
    rw [cex_normalDot_zero]
    have hfrac : 0 < gaussianDensityAt
        (sigmaRealOf 2 cexFeatures cexCorresponding cexFlags cexProbability)
        (residualDistance 2 cexFeatures cexCorresponding 0) /
        (gaussianDensityAt
          (sigmaRealOf 2 cexFeatures cexCorresponding cexFlags cexProbability)
          (residualDistance 2 cexFeatures cexCorresponding 0) +
          cutoffDensity (sigmaRealOf 2 cexFeatures cexCorresponding cexFlags cexProbability) 3) :=
      div_pos hg (by linarith)
    nlinarith
  linarith

/-- C1 amended: an element whose corresponding flag is below 0.5 is zeroed
only for the sigma estimation (its gated probability is 0, so neither sigma
sum sees its input probability or residual weight); the distance pass then
overwrites every entry, so the final array does not depend on the input
probability of such an element at all, rather than ending at a forced 0.0. -/
theorem inlier_detection_flag_gate_sigma_only (n : ℕ)
    (f cf : Fin n → Fin 6 → ℝ) (flags p : Fin n → ℝ) (kappaa : ℝ) (i : Fin n)
    (h : flags i < 0.5) :
    gatedProbability n flags p i = 0 ∧
    ∀ q : Fin n → ℝ, (∀ j, j ≠ i → q j = p j) →
      inlier_detection n f cf flags q kappaa = inlier_detection n f cf flags p kappaa := by
  constructor
  · unfold gatedProbability
    rw [if_pos h]
  · intro q hq
    have hgate : gatedProbability n flags q = gatedProbability n flags p := by
      funext j
      unfold gatedProbability
      rcases eq_or_ne j i with rfl | hj
      · rw [if_pos h, if_pos h]
      · rw [hq j hj]
    have hsig : sigmaaOf n f cf flags q = sigmaaOf n f cf flags p := by
      unfold sigmaaOf sigmaNumerator sigmaDenominator
      rw [hgate]
    funext j
    unfold inlier_detection
    rw [hsig]

/-- Witness for C1 amended at the concrete input: element 0 is flagged
below 0.5; its gated probability is 0 and replacing its input probability
leaves the output array unchanged. -/
theorem inlier_detection_flag_gate_sigma_only_witness :
    cexFlags 0 < 0.5 ∧
    gatedProbability 2 cexFlags cexProbability 0 = 0 ∧
    inlier_detection 2 cexFeatures cexCorresponding cexFlags cexProbability 3
      = inlier_detection 2 cexFeatures cexCorresponding cexFlags cexProbability 3 := by
  have h : cexFlags 0 < 0.5 := by
    rw [show cexFlags 0 = 0 from rfl]
    norm_num
  have hthm := inlier_detection_flag_gate_sigma_only 2 cexFeatures cexCorresponding
    cexFlags cexProbability 3 0 h
  exact ⟨h, hthm.1, hthm.2 cexProbability (fun j hj => rfl)⟩

/-! ## Claim C4 -/

/-- Concrete single element input on which every current probability is 0
when the distance pass runs: the lone element is flagged invalid, so the
flag gate zeroes the only probability before the sigma sums are taken. -/
noncomputable def degFeatures : Fin 1 → Fin 6 → ℝ := fun _ => ![0, 0, 0, 0, 0, 1]

/-- Flags of the degenerate input: the element is invalid. -/
noncomputable def degFlags : Fin 1 → ℝ := fun _ => 0

/-- Input probabilities of the degenerate input. -/
noncomputable def degProbability : Fin 1 → ℝ := fun _ => 1

/-- C4: at the degenerate input both sigma sums are zero and the classifier
neither fails with DegenerateState nor short circuits with the
probabilities left at 0: line 173 computes sqrt(0.0/0.0), which is nan in
IEEE arithmetic (numpy warns and continues), and the nan propagates
silently into the final probability of the element. -/
theorem inlier_detection_zero_sum_nan :
    sigmaNumerator 1 degFeatures degFeatures degFlags degProbability = 0 ∧
    sigmaDenominator 1 degFlags degProbability = 0 ∧
    inlier_detection 1 degFeatures degFeatures degFlags degProbability 3 0 = PF.nan := by
  have hg : gatedProbability 1 degFlags degProbability 0 = 0 := by
    unfold gatedProbability degFlags degProbability
    norm_num
  have hnum : sigmaNumerator 1 degFeatures degFeatures degFlags degProbability = 0 := by
    unfold sigmaNumerator
    rw [Fin.sum_univ_one, hg]
    ring
  have hden : sigmaDenominator 1 degFlags degProbability = 0 := by
    unfold sigmaDenominator
    rw [Fin.sum_univ_one, hg]
  have hsig : sigmaaOf 1 degFeatures degFeatures degFlags degProbability = PF.nan := by
    unfold sigmaaOf
    rw [hnum, hden, PF.div_fin_zero_zero, PF.sqrt_nan]
  refine ⟨hnum, hden, ?_⟩
  unfold inlier_detection pass2Probability distProbabilityOf lambdaaOf
  rw [hsig, PF.mul_fin_nan, PF.div_fin_nan, PF.div_fin_nan, PF.sq_nan, PF.mul_fin_nan,
    PF.exp_nan, PF.mul_nan, PF.mul_nan, PF.add_nan, PF.div_nan, PF.mul_nan]

/-- Witness for C7 at concrete inputs: the call fails with the NameError,
the name numFloatingVertices is bound neither at module level nor as a
parameter, and two calls with different arguments give the same result. -/
theorem rigid_transformation_unbound_globals_witness :
    rigid_transformation 1 (fun _ _ => 0) (fun _ _ => 1) (fun _ => 1)
      = Except.error (PyErr.nameError PyName.numFloatingVertices) ∧
    (PyName.numFloatingVertices ∉ coreModuleGlobals ∧
      PyName.numFloatingVertices ∉ rigidTransformationParams) ∧
    rigid_transformation 2 (fun _ _ => 1) (fun _ _ => 0) (fun _ => 0)
      = rigid_transformation 1 (fun _ _ => 0) (fun _ _ => 1) (fun _ => 1) := by
  have h := rigid_transformation_unbound_globals 1 (fun _ _ => 0) (fun _ _ => 1) (fun _ => 1)
  exact ⟨h.1, h.2.1 PyName.numFloatingVertices (by decide),
    h.2.2 2 (fun _ _ => 1) (fun _ _ => 0) (fun _ => 0)⟩
